import Mathlib

/-!
# The JNI header `com_pi4j_jni_I2C.h` of Pi4J

`com_pi4j_jni_I2C.h` is the machine-generated (javah) header that declares the native
I2C entry points of the Java class `com.pi4j.jni.I2C`.  The development below embeds
the header as it stands, character for character, reads it with a small lexer,
a conditional-inclusion pass and a reader of external declarations, and proves the
properties of the declared interface on the result of that reading.
-/

namespace Pi4j

/-! ## The source text -/

/-- The text of `src/pi4j-native/src/main/native/com_pi4j_jni_I2C.h`, one string per
line of the file (entry `i` is line `i + 1`; the last line has no newline after it).
Inside the strings a double quote is written with a backslash before it, and the
two braces of the linkage block as their hexadecimal escapes. -/
def com_pi4j_jni_I2C_h : List String := [
  "/*",
  " * #%L",
  " * **********************************************************************",
  " * ORGANIZATION  :  Pi4J",
  " * PROJECT       :  Pi4J :: JNI Native Library",
  " * FILENAME      :  com_pi4j_jni_I2C.h",
  " * ",
  " * This file is part of the Pi4J project. More information about",
  " * this project can be found here:  http://www.pi4j.com/",
  " * **********************************************************************",
  " * %%",
  " * Copyright (C) 2012 - 2016 Pi4J",
  " * %%",
  " * This program is free software: you can redistribute it and/or modify",
  " * it under the terms of the GNU Lesser General Public License as",
  " * published by the Free Software Foundation, either version 3 of the",
  " * License, or (at your option) any later version.",
  " * ",
  " * This program is distributed in the hope that it will be useful,",
  " * but WITHOUT ANY WARRANTY; without even the implied warranty of",
  " * MERCHANTABILITY or FITNESS FOR A PARTICULAR PURPOSE.  See the",
  " * GNU General Lesser Public License for more details.",
  " * ",
  " * You should have received a copy of the GNU General Lesser Public",
  " * License along with this program.  If not, see",
  " * <http://www.gnu.org/licenses/lgpl-3.0.html>.",
  " * #L%",
  " */",
  "/* DO NOT EDIT THIS FILE - it is machine generated */",
  "#include <jni.h>",
  "/* Header for class com_pi4j_jni_I2C */",
  "",
  "#ifndef _Included_com_pi4j_jni_I2C",
  "#define _Included_com_pi4j_jni_I2C",
  "#ifdef __cplusplus",
  "extern \"C\" \x7b",
  "#endif",
  "/*",
  " * Class:     com_pi4j_jni_I2C",
  " * Method:    i2cOpen",
  " * Signature: (Ljava/lang/String;)I",
  " */",
  "JNIEXPORT jint JNICALL Java_com_pi4j_jni_I2C_i2cOpen",
  "  (JNIEnv *, jclass, jstring);",
  "",
  "/*",
  " * Class:     com_pi4j_jni_I2C",
  " * Method:    i2cClose",
  " * Signature: (I)I",
  " */",
  "JNIEXPORT jint JNICALL Java_com_pi4j_jni_I2C_i2cClose",
  "  (JNIEnv *, jclass, jint);",
  "",
  "/*",
  " * Class:     com_pi4j_jni_I2C",
  " * Method:    i2cWriteByteDirect",
  " * Signature: (IIB)I",
  " */",
  "JNIEXPORT jint JNICALL Java_com_pi4j_jni_I2C_i2cWriteByteDirect",
  "  (JNIEnv *, jclass, jint, jint, jbyte);",
  "",
  "/*",
  " * Class:     com_pi4j_jni_I2C",
  " * Method:    i2cWriteBytesDirect",
  " * Signature: (IIII[B)I",
  " */",
  "JNIEXPORT jint JNICALL Java_com_pi4j_jni_I2C_i2cWriteBytesDirect",
  "  (JNIEnv *, jclass, jint, jint, jint, jint, jbyteArray);",
  "",
  "/*",
  " * Class:     com_pi4j_jni_I2C",
  " * Method:    i2cWriteByte",
  " * Signature: (IIIB)I",
  " */",
  "JNIEXPORT jint JNICALL Java_com_pi4j_jni_I2C_i2cWriteByte",
  "  (JNIEnv *, jclass, jint, jint, jint, jbyte);",
  "",
  "/*",
  " * Class:     com_pi4j_jni_I2C",
  " * Method:    i2cWriteBytes",
  " * Signature: (IIIII[B)I",
  " */",
  "JNIEXPORT jint JNICALL Java_com_pi4j_jni_I2C_i2cWriteBytes",
  "  (JNIEnv *, jclass, jint, jint, jint, jint, jint, jbyteArray);",
  "",
  "/*",
  " * Class:     com_pi4j_jni_I2C",
  " * Method:    i2cReadByteDirect",
  " * Signature: (II)I",
  " */",
  "JNIEXPORT jint JNICALL Java_com_pi4j_jni_I2C_i2cReadByteDirect",
  "  (JNIEnv *, jclass, jint, jint);",
  "",
  "/*",
  " * Class:     com_pi4j_jni_I2C",
  " * Method:    i2cReadBytesDirect",
  " * Signature: (IIII[B)I",
  " */",
  "JNIEXPORT jint JNICALL Java_com_pi4j_jni_I2C_i2cReadBytesDirect",
  "  (JNIEnv *, jclass, jint, jint, jint, jint, jbyteArray);",
  "",
  "/*",
  " * Class:     com_pi4j_jni_I2C",
  " * Method:    i2cReadByte",
  " * Signature: (III)I",
  " */",
  "JNIEXPORT jint JNICALL Java_com_pi4j_jni_I2C_i2cReadByte",
  "  (JNIEnv *, jclass, jint, jint, jint);",
  "",
  "/*",
  " * Class:     com_pi4j_jni_I2C",
  " * Method:    i2cReadBytes",
  " * Signature: (IIIII[B)I",
  " */",
  "JNIEXPORT jint JNICALL Java_com_pi4j_jni_I2C_i2cReadBytes",
  "  (JNIEnv *, jclass, jint, jint, jint, jint, jint, jbyteArray);",
  "",
  "/*",
  " * Class:     com_pi4j_jni_I2C",
  " * Method:    i2cWriteAndReadBytes",
  " * Signature: (IIII[BII[B)I",
  " */",
  "JNIEXPORT jint JNICALL Java_com_pi4j_jni_I2C_i2cWriteAndReadBytes",
  "  (JNIEnv *, jclass, jint, jint, jint, jint, jbyteArray, jint, jint, jbyteArray);",
  "",
  "#ifdef __cplusplus",
  "\x7d",
  "#endif",
  "#endif"
]

/-- The characters of the file: the lines joined by newlines. -/
def joinLines : List String → List Char
  | [] => []
  | [l] => l.data
  | l :: ls => l.data ++ '\n' :: joinLines ls

/-- The header as one sequence of characters. -/
def headerText : List Char := joinLines com_pi4j_jni_I2C_h

/-! ## Lexical structure -/

/-- The lexical tokens of a C header, as far as this header needs them. -/
inductive Token where
  /-- A comment, without its delimiters. -/
  | comment (text : String)
  /-- A preprocessor line, without its `#`. -/
  | directive (text : String)
  /-- An identifier or keyword. -/
  | ident (name : String)
  /-- A string literal, without its quotes. -/
  | strLit (text : String)
  /-- Any other character that is not white space. -/
  | punct (c : Char)
  deriving DecidableEq, Repr

/-- What the lexer is in the middle of (accumulated characters are kept reversed). -/
inductive Mode where
  | code
  | word (acc : List Char)
  | slash
  | block (acc : List Char) (star : Bool)
  | line (acc : List Char)
  | hash (acc : List Char)
  | quote (acc : List Char)
  deriving DecidableEq, Repr

/-- Characters of an identifier. -/
def isWordChar (c : Char) : Bool := c.isAlphanum || c == '_'

/-- The lexer on a character met between tokens. -/
def lexCode (c : Char) (out : List Token) : Mode × List Token :=
  if isWordChar c then (.word [c], out)
  else if c == '/' then (.slash, out)
  else if c == '#' then (.hash [], out)
  else if c == '\"' then (.quote [], out)
  else if c.isWhitespace then (.code, out)
  else (.code, .punct c :: out)

/-- One step of the lexer (tokens are collected in reverse). -/
def lexStep : Mode × List Token → Char → Mode × List Token
  | (.code, out), c => lexCode c out
  | (.word acc, out), c =>
      if isWordChar c then (.word (c :: acc), out)
      else lexCode c (.ident (String.mk acc.reverse) :: out)
  | (.slash, out), c =>
      if c == '*' then (.block [] false, out)
      else if c == '/' then (.line [], out)
      else lexCode c (.punct '/' :: out)
  | (.block acc star, out), c =>
      if star && c == '/' then (.code, .comment (String.mk (acc.drop 1).reverse) :: out)
      else (.block (c :: acc) (c == '*'), out)
  | (.line acc, out), c =>
      if c == '\n' then (.code, .comment (String.mk acc.reverse) :: out)
      else (.line (c :: acc), out)
  | (.hash acc, out), c =>
      if c == '\n' then (.code, .directive (String.mk acc.reverse) :: out)
      else (.hash (c :: acc), out)
  | (.quote acc, out), c =>
      if c == '\"' then (.code, .strLit (String.mk acc.reverse) :: out)
      else (.quote (c :: acc), out)

/-- The end of the input: what was being read is closed. -/
def lexFinish : Mode × List Token → List Token
  | (.code, out) => out.reverse
  | (.word acc, out) => (Token.ident (String.mk acc.reverse) :: out).reverse
  | (.slash, out) => (Token.punct '/' :: out).reverse
  | (.block acc _, out) => (Token.comment (String.mk acc.reverse) :: out).reverse
  | (.line acc, out) => (Token.comment (String.mk acc.reverse) :: out).reverse
  | (.hash acc, out) => (Token.directive (String.mk acc.reverse) :: out).reverse
  | (.quote acc, out) => (Token.strLit (String.mk acc.reverse) :: out).reverse

/-- The tokens of a text. -/
def lex (cs : List Char) : List Token := lexFinish (cs.foldl lexStep (.code, []))

/-- The words of a text: its maximal runs of characters that are not white space. -/
def wordsAux : List Char → List Char → List String
  | [], acc => if acc.isEmpty then [] else [String.mk acc.reverse]
  | c :: cs, acc =>
      if c.isWhitespace then
        if acc.isEmpty then wordsAux cs [] else String.mk acc.reverse :: wordsAux cs []
      else wordsAux cs (c :: acc)

/-- The words of a string. -/
def words (s : String) : List String := wordsAux s.data []

/-! ## Conditional inclusion -/

/-- The state of the preprocessor pass over the tokens. -/
structure Preprocessed where
  /-- The macros that are defined at this point. -/
  defined : List String
  /-- One entry per open `#if…`: whether its branch is taken. -/
  stack : List Bool := []
  /-- The tokens that survive, in reverse. -/
  kept : List Token := []
  /-- The macros this file defines, each with the words of its replacement. -/
  defines : List (String × List String) := []
  /-- The files this file includes. -/
  includes : List String := []
  /-- The directives that were not understood or not balanced. -/
  unknown : List String := []
  deriving DecidableEq, Repr

/-- Whether the text at this point is compiled. -/
def Preprocessed.active (st : Preprocessed) : Bool := st.stack.all id

/-- One token through the preprocessor. -/
def ppStep (st : Preprocessed) : Token → Preprocessed
  | .directive text =>
      match words text with
      | ["ifdef", m] => { st with stack := (st.active && st.defined.contains m) :: st.stack }
      | ["ifndef", m] => { st with stack := (st.active && !st.defined.contains m) :: st.stack }
      | ["endif"] =>
          match st.stack with
          | [] => { st with unknown := text :: st.unknown }
          | _ :: rest => { st with stack := rest }
      | "define" :: m :: body =>
          if st.active then
            { st with defined := m :: st.defined, defines := (m, body) :: st.defines }
          else st
      | ["include", f] => if st.active then { st with includes := f :: st.includes } else st
      | _ => { st with unknown := text :: st.unknown }
  | t => if st.active then { st with kept := t :: st.kept } else st

/-- The preprocessor pass, starting from the macros the compiler predefines. -/
def preprocess (predefined : List String) (ts : List Token) : Preprocessed :=
  ts.foldl ppStep { defined := predefined }

/-! ## External declarations -/

/-- A C type as it is written in a parameter list: a type name under some
number of `*`. -/
inductive CType where
  | named (name : String)
  | pointer (target : CType)
  deriving DecidableEq, Repr

/-- A function prototype of the header, with the fields of the javah comment
that stands above it. -/
structure Declaration where
  /-- The `Class:` field of the comment. -/
  cls : String
  /-- The `Method:` field of the comment. -/
  method : String
  /-- The `Signature:` field of the comment. -/
  signature : String
  /-- The language of the enclosing linkage block, when there is one. -/
  linkage : Option String
  /-- The words before the function's name: `JNIEXPORT`, the result type, `JNICALL`. -/
  specifiers : List String
  /-- The name of the function: the exported symbol. -/
  symbol : String
  /-- The types of the parameter list, in order. -/
  params : List CType
  deriving DecidableEq, Repr

/-- A top-level item of a translation unit. -/
inductive Item where
  /-- A function declared and not defined: it ends in `;` after its parameter list. -/
  | prototype (d : Declaration)
  /-- A function with a body. -/
  | definition (tokens : List Token)
  /-- A declaration with no parameter list: an object, a type. -/
  | variable (tokens : List Token)
  /-- Tokens that are none of the above. -/
  | malformed (tokens : List Token)
  deriving DecidableEq, Repr

/-- The word after `key` in a list of words. -/
def fieldAfter (key : String) : List String → String
  | [] => ""
  | [_] => ""
  | w :: v :: ws => if w = key then v else fieldAfter key (v :: ws)

/-- The names of a list of tokens that are all identifiers. -/
def identsOf : List Token → Option (List String)
  | [] => some []
  | .ident n :: ts => (identsOf ts).map (n :: ·)
  | _ :: _ => none

/-- The stars after a type name, and then the parameter's name when it has one. -/
def starsOver (t : CType) : List Token → Option CType
  | [] => some t
  | [.ident _] => some t
  | .punct c :: ts => if c = '*' then starsOver (.pointer t) ts else none
  | _ :: _ => none

/-- One parameter: a type name and then stars. -/
def parseParam : List Token → Option CType
  | .ident n :: ts => starsOver (.named n) ts
  | _ => none

/-- The parameters between the parentheses, split at the commas; `cur` is
the parameter being read, reversed. -/
def parseParams : List Token → List Token → Option (List CType)
  | [], [] => some []
  | [], cur => (parseParam cur.reverse).map ([·])
  | t :: ts, cur =>
      if t = .punct ',' then
        match parseParam cur.reverse, parseParams ts [] with
        | some p, some ps => some (p :: ps)
        | _, _ => none
      else parseParams ts (t :: cur)

/-- The tokens before the first `(`, and those after it. -/
def splitAtParen : List Token → Option (List Token × List Token)
  | [] => none
  | t :: ts =>
      if t = .punct '(' then some ([], ts)
      else (splitAtParen ts).map (fun p => (t :: p.1, p.2))

/-- A declaration that ended in `;`: a prototype when it reads
`words name ( parameters )`, an object when it has no parenthesis. -/
def classify (doc : String) (linkage : Option String) (toks : List Token) : Item :=
  match splitAtParen toks with
  | none => .variable toks
  | some (head, rest) =>
      match rest.reverse with
      | last :: revParams =>
          if last = .punct ')' then
            match identsOf head, parseParams revParams.reverse [] with
            | some ws, some ps =>
                match ws.reverse with
                | name :: revSpecs =>
                    .prototype
                      { cls := fieldAfter "Class:" (words doc)
                        method := fieldAfter "Method:" (words doc)
                        signature := fieldAfter "Signature:" (words doc)
                        linkage := linkage
                        specifiers := revSpecs.reverse
                        symbol := name
                        params := ps }
                | [] => .malformed toks
            | _, _ => .malformed toks
          else .malformed toks
      | [] => .malformed toks

/-- The state of the reader of external declarations. -/
structure Reader where
  /-- The comment that stands right above the declaration being read. -/
  doc : String := ""
  /-- The tokens of the declaration being read, reversed. -/
  cur : List Token := []
  /-- How many braces of a body are open. -/
  depth : Nat := 0
  /-- The language of the linkage block that is open. -/
  linkage : Option String := none
  /-- The items read so far, reversed. -/
  items : List Item := []
  deriving DecidableEq, Repr

/-- Whether a token list holds a parameter list. -/
def hasParen (ts : List Token) : Bool := ts.contains (.punct '(')

/-- One token through the reader. -/
def readStep (s : Reader) (t : Token) : Reader :=
  if s.depth > 0 then
    if t = .punct '\x7b' then { s with depth := s.depth + 1, cur := t :: s.cur }
    else if t = .punct '\x7d' then
      if s.depth = 1 ∧ hasParen s.cur then
        { s with depth := 0, cur := [], doc := "",
                 items := .definition (t :: s.cur).reverse :: s.items }
      else { s with depth := s.depth - 1, cur := t :: s.cur }
    else { s with cur := t :: s.cur }
  else
    match t with
    | .comment c => if s.cur.isEmpty then { s with doc := c } else s
    | .directive _ => s
    | .punct c =>
        if c = ';' then
          if s.cur.isEmpty then s
          else { s with cur := [], doc := "",
                        items := classify s.doc s.linkage s.cur.reverse :: s.items }
        else if c = '\x7b' then
          match s.cur with
          | [.strLit lang, .ident "extern"] => { s with cur := [], linkage := some lang }
          | _ => { s with depth := 1, cur := t :: s.cur }
        else if c = '\x7d' then
          if s.linkage.isSome ∧ s.cur.isEmpty then { s with linkage := none }
          else { s with cur := [], items := .malformed (t :: s.cur).reverse :: s.items }
        else { s with cur := t :: s.cur }
    | _ => { s with cur := t :: s.cur }

/-- The items of a token list; tokens left over at the end are an item that is
not well formed. -/
def readItems (ts : List Token) : List Item :=
  let s := ts.foldl readStep {}
  (if s.cur.isEmpty then s.items else .malformed s.cur.reverse :: s.items).reverse

/-- The compilers the header is written for. -/
inductive Language where
  | c
  | cplusplus
  deriving DecidableEq, Repr

/-- The macros a compiler defines before it reads the header. -/
def predefined : Language → List String
  | .c => []
  | .cplusplus => ["__cplusplus"]

/-- The header after conditional inclusion, under the macros `defs`. -/
def preprocessedWith (defs : List String) : Preprocessed :=
  preprocess defs (lex headerText)

/-- The top-level items of the header under the macros `defs`. -/
def itemsWith (defs : List String) : List Item :=
  readItems (preprocessedWith defs).kept.reverse

/-- The header after conditional inclusion, when it is included first. -/
def preprocessed (lang : Language) : Preprocessed :=
  preprocessedWith (predefined lang)

/-- The top-level items of the header. -/
def items (lang : Language) : List Item :=
  itemsWith (predefined lang)

/-- Whether an item is a function prototype. -/
def Item.isPrototype : Item → Bool
  | .prototype _ => true
  | _ => false

/-- Whether an item is a function with a body. -/
def Item.isDefinition : Item → Bool
  | .definition _ => true
  | _ => false

/-- Whether an item declares an object or a type. -/
def Item.isVariable : Item → Bool
  | .variable _ => true
  | _ => false

/-- The prototype of an item that is one. -/
def Item.prototype? : Item → Option Declaration
  | .prototype d => some d
  | _ => none

/-- The functions the header declares, in the order of the file. -/
def declarations (lang : Language) : List Declaration :=
  (items lang).filterMap Item.prototype?

/-! ## The declarations, written out -/

/-- Lines 38 to 44 of the header: the comment and prototype of `i2cOpen`;
`linkage` is the language of the linkage block the prototype is read in. -/
def Java_com_pi4j_jni_I2C_i2cOpen (linkage : Option String) : Declaration :=
  { cls := "com_pi4j_jni_I2C"
    method := "i2cOpen"
    signature := "(Ljava/lang/String;)I"
    linkage := linkage
    specifiers := ["JNIEXPORT", "jint", "JNICALL"]
    symbol := "Java_com_pi4j_jni_I2C_i2cOpen"
    params := [.pointer (.named "JNIEnv"), .named "jclass", .named "jstring"] }

/-- Lines 46 to 52 of the header: the comment and prototype of `i2cClose`;
`linkage` is the language of the linkage block the prototype is read in. -/
def Java_com_pi4j_jni_I2C_i2cClose (linkage : Option String) : Declaration :=
  { cls := "com_pi4j_jni_I2C"
    method := "i2cClose"
    signature := "(I)I"
    linkage := linkage
    specifiers := ["JNIEXPORT", "jint", "JNICALL"]
    symbol := "Java_com_pi4j_jni_I2C_i2cClose"
    params := [.pointer (.named "JNIEnv"), .named "jclass", .named "jint"] }

/-- Lines 54 to 60 of the header: the comment and prototype of `i2cWriteByteDirect`;
`linkage` is the language of the linkage block the prototype is read in. -/
def Java_com_pi4j_jni_I2C_i2cWriteByteDirect (linkage : Option String) : Declaration :=
  { cls := "com_pi4j_jni_I2C"
    method := "i2cWriteByteDirect"
    signature := "(IIB)I"
    linkage := linkage
    specifiers := ["JNIEXPORT", "jint", "JNICALL"]
    symbol := "Java_com_pi4j_jni_I2C_i2cWriteByteDirect"
    params := [.pointer (.named "JNIEnv"), .named "jclass", .named "jint", .named "jint",
      .named "jbyte"] }

/-- Lines 62 to 68 of the header: the comment and prototype of `i2cWriteBytesDirect`;
`linkage` is the language of the linkage block the prototype is read in. -/
def Java_com_pi4j_jni_I2C_i2cWriteBytesDirect (linkage : Option String) : Declaration :=
  { cls := "com_pi4j_jni_I2C"
    method := "i2cWriteBytesDirect"
    signature := "(IIII[B)I"
    linkage := linkage
    specifiers := ["JNIEXPORT", "jint", "JNICALL"]
    symbol := "Java_com_pi4j_jni_I2C_i2cWriteBytesDirect"
    params := [.pointer (.named "JNIEnv"), .named "jclass", .named "jint", .named "jint",
      .named "jint", .named "jint", .named "jbyteArray"] }

/-- Lines 70 to 76 of the header: the comment and prototype of `i2cWriteByte`;
`linkage` is the language of the linkage block the prototype is read in. -/
def Java_com_pi4j_jni_I2C_i2cWriteByte (linkage : Option String) : Declaration :=
  { cls := "com_pi4j_jni_I2C"
    method := "i2cWriteByte"
    signature := "(IIIB)I"
    linkage := linkage
    specifiers := ["JNIEXPORT", "jint", "JNICALL"]
    symbol := "Java_com_pi4j_jni_I2C_i2cWriteByte"
    params := [.pointer (.named "JNIEnv"), .named "jclass", .named "jint", .named "jint",
      .named "jint", .named "jbyte"] }

/-- Lines 78 to 84 of the header: the comment and prototype of `i2cWriteBytes`;
`linkage` is the language of the linkage block the prototype is read in. -/
def Java_com_pi4j_jni_I2C_i2cWriteBytes (linkage : Option String) : Declaration :=
  { cls := "com_pi4j_jni_I2C"
    method := "i2cWriteBytes"
    signature := "(IIIII[B)I"
    linkage := linkage
    specifiers := ["JNIEXPORT", "jint", "JNICALL"]
    symbol := "Java_com_pi4j_jni_I2C_i2cWriteBytes"
    params := [.pointer (.named "JNIEnv"), .named "jclass", .named "jint", .named "jint",
      .named "jint", .named "jint", .named "jint", .named "jbyteArray"] }

/-- Lines 86 to 92 of the header: the comment and prototype of `i2cReadByteDirect`;
`linkage` is the language of the linkage block the prototype is read in. -/
def Java_com_pi4j_jni_I2C_i2cReadByteDirect (linkage : Option String) : Declaration :=
  { cls := "com_pi4j_jni_I2C"
    method := "i2cReadByteDirect"
    signature := "(II)I"
    linkage := linkage
    specifiers := ["JNIEXPORT", "jint", "JNICALL"]
    symbol := "Java_com_pi4j_jni_I2C_i2cReadByteDirect"
    params := [.pointer (.named "JNIEnv"), .named "jclass", .named "jint", .named "jint"] }

/-- Lines 94 to 100 of the header: the comment and prototype of `i2cReadBytesDirect`;
`linkage` is the language of the linkage block the prototype is read in. -/
def Java_com_pi4j_jni_I2C_i2cReadBytesDirect (linkage : Option String) : Declaration :=
  { cls := "com_pi4j_jni_I2C"
    method := "i2cReadBytesDirect"
    signature := "(IIII[B)I"
    linkage := linkage
    specifiers := ["JNIEXPORT", "jint", "JNICALL"]
    symbol := "Java_com_pi4j_jni_I2C_i2cReadBytesDirect"
    params := [.pointer (.named "JNIEnv"), .named "jclass", .named "jint", .named "jint",
      .named "jint", .named "jint", .named "jbyteArray"] }

/-- Lines 102 to 108 of the header: the comment and prototype of `i2cReadByte`;
`linkage` is the language of the linkage block the prototype is read in. -/
def Java_com_pi4j_jni_I2C_i2cReadByte (linkage : Option String) : Declaration :=
  { cls := "com_pi4j_jni_I2C"
    method := "i2cReadByte"
    signature := "(III)I"
    linkage := linkage
    specifiers := ["JNIEXPORT", "jint", "JNICALL"]
    symbol := "Java_com_pi4j_jni_I2C_i2cReadByte"
    params := [.pointer (.named "JNIEnv"), .named "jclass", .named "jint", .named "jint",
      .named "jint"] }

/-- Lines 110 to 116 of the header: the comment and prototype of `i2cReadBytes`;
`linkage` is the language of the linkage block the prototype is read in. -/
def Java_com_pi4j_jni_I2C_i2cReadBytes (linkage : Option String) : Declaration :=
  { cls := "com_pi4j_jni_I2C"
    method := "i2cReadBytes"
    signature := "(IIIII[B)I"
    linkage := linkage
    specifiers := ["JNIEXPORT", "jint", "JNICALL"]
    symbol := "Java_com_pi4j_jni_I2C_i2cReadBytes"
    params := [.pointer (.named "JNIEnv"), .named "jclass", .named "jint", .named "jint",
      .named "jint", .named "jint", .named "jint", .named "jbyteArray"] }

/-- Lines 118 to 124 of the header: the comment and prototype of `i2cWriteAndReadBytes`;
`linkage` is the language of the linkage block the prototype is read in. -/
def Java_com_pi4j_jni_I2C_i2cWriteAndReadBytes (linkage : Option String) : Declaration :=
  { cls := "com_pi4j_jni_I2C"
    method := "i2cWriteAndReadBytes"
    signature := "(IIII[BII[B)I"
    linkage := linkage
    specifiers := ["JNIEXPORT", "jint", "JNICALL"]
    symbol := "Java_com_pi4j_jni_I2C_i2cWriteAndReadBytes"
    params := [.pointer (.named "JNIEnv"), .named "jclass", .named "jint", .named "jint",
      .named "jint", .named "jint", .named "jbyteArray", .named "jint", .named "jint",
      .named "jbyteArray"] }

/-- The eleven prototypes of the header in the order of the file, written out. -/
def prototypes (linkage : Option String) : List Declaration :=
  [Java_com_pi4j_jni_I2C_i2cOpen linkage,
   Java_com_pi4j_jni_I2C_i2cClose linkage,
   Java_com_pi4j_jni_I2C_i2cWriteByteDirect linkage,
   Java_com_pi4j_jni_I2C_i2cWriteBytesDirect linkage,
   Java_com_pi4j_jni_I2C_i2cWriteByte linkage,
   Java_com_pi4j_jni_I2C_i2cWriteBytes linkage,
   Java_com_pi4j_jni_I2C_i2cReadByteDirect linkage,
   Java_com_pi4j_jni_I2C_i2cReadBytesDirect linkage,
   Java_com_pi4j_jni_I2C_i2cReadByte linkage,
   Java_com_pi4j_jni_I2C_i2cReadBytes linkage,
   Java_com_pi4j_jni_I2C_i2cWriteAndReadBytes linkage]

/-- The linkage block the prototypes stand in: none for C, `extern "C"` for C++. -/
def linkageOf : Language → Option String
  | .c => none
  | .cplusplus => some "C"

/-! ## The JNI conventions the header follows -/

/-- The JNI type `jint`. -/
def jint : CType := .named "jint"

/-- The JNI type `jbyte`. -/
def jbyte : CType := .named "jbyte"

/-- The JNI type `jbyteArray`. -/
def jbyteArray : CType := .named "jbyteArray"

/-- The JNI type `jstring`. -/
def jstring : CType := .named "jstring"

/-- The JNI type `jclass`. -/
def jclass : CType := .named "jclass"

/-- The type `JNIEnv *` of the first parameter of a native function. -/
def JNIEnvPtr : CType := .pointer (.named "JNIEnv")

/-- The result type of a prototype written `JNIEXPORT type JNICALL name (…)`, the
form javah gives every native function; `JNIEXPORT` and `JNICALL` are the linkage
and calling-convention macros of `jni.h`. -/
def resultType (d : Declaration) : Option CType :=
  match d.specifiers with
  | ["JNIEXPORT", t, "JNICALL"] => some (.named t)
  | _ => none

/-- The prototypes that are exported with `JNIEXPORT`. -/
def exportedDeclarations (lang : Language) : List Declaration :=
  (declarations lang).filter (fun d => d.specifiers.contains "JNIEXPORT")

/-- A hexadecimal digit, in lower case. -/
def hexDigit (n : Nat) : Char :=
  if n < 10 then Char.ofNat (48 + n) else Char.ofNat (87 + n)

/-- The JNI name mangling of one character: `.` and `/` become `_`, the
characters `_`, `;` and `[` become `_1`, `_2` and `_3`, an ASCII letter or digit
stands for itself, and any other character becomes `_0` and its code in four
hexadecimal digits. -/
def mangleChar (c : Char) : List Char :=
  if c = '.' ∨ c = '/' then ['_']
  else if c = '_' then ['_', '1']
  else if c = ';' then ['_', '2']
  else if c = '[' then ['_', '3']
  else if c.isAlphanum then [c]
  else ['_', '0', hexDigit (c.toNat / 4096 % 16), hexDigit (c.toNat / 256 % 16),
        hexDigit (c.toNat / 16 % 16), hexDigit (c.toNat % 16)]

/-- The JNI name mangling of a class or method name. -/
def mangle (s : String) : String := String.mk (s.data.flatMap mangleChar)

/-- The symbol JNI resolves a native method to: `Java_`, the mangled class name,
`_`, the mangled method name. -/
def jniSymbol (cls method : String) : String :=
  "Java_" ++ mangle cls ++ "_" ++ mangle method

/-- Whether a character of a name needs a JNI escape sequence. -/
def needsEscape (c : Char) : Bool :=
  c == '_' || c == ';' || c == '[' || !(c.toNat < 128)

/-- The C type of a primitive field descriptor of the header. -/
def primitiveType (c : Char) : Option CType :=
  if c = 'I' then some jint
  else if c = 'B' then some jbyte
  else none

/-- The C type of an array whose element descriptor is `c`. -/
def arrayType (c : Char) : Option CType :=
  if c = 'B' then some jbyteArray else none

/-- The C type of an object of the class named `name`. -/
def objectType (name : String) : Option CType :=
  if name = "java/lang/String" then some jstring else none

/-- Where the descriptor decoder stands: between types, after `[`, or inside the
class name of an `L…;` (kept reversed). -/
inductive DescriptorState where
  | plain
  | array
  | object (acc : List Char)
  deriving DecidableEq, Repr

/-- The types of the descriptor characters up to the closing `)`, and the
characters after it. -/
def decodeArgs : List Char → DescriptorState → Option (List CType × List Char)
  | [], _ => none
  | c :: cs, .plain =>
      if c = ')' then some ([], cs)
      else if c = '[' then decodeArgs cs .array
      else if c = 'L' then decodeArgs cs (.object [])
      else
        match primitiveType c, decodeArgs cs .plain with
        | some t, some (ts, rest) => some (t :: ts, rest)
        | _, _ => none
  | c :: cs, .array =>
      match arrayType c, decodeArgs cs .plain with
      | some t, some (ts, rest) => some (t :: ts, rest)
      | _, _ => none
  | c :: cs, .object acc =>
      if c = ';' then
        match objectType (String.mk acc.reverse), decodeArgs cs .plain with
        | some t, some (ts, rest) => some (t :: ts, rest)
        | _, _ => none
      else decodeArgs cs (.object (c :: acc))

/-- A method descriptor `(arguments)result` decoded into C types: `I` is `jint`,
`B` is `jbyte`, `[B` is `jbyteArray`, `Ljava/lang/String;` is `jstring`. -/
def decodeSignature (sig : String) : Option (List CType × CType) :=
  match sig.data with
  | '(' :: cs =>
      match decodeArgs cs .plain with
      | some (args, [r]) => (primitiveType r).map (fun t => (args, t))
      | _ => none
  | _ => none

/-- The kinds of operation on an I2C bus. -/
inductive Kind where
  | opening
  | closing
  | byteRead
  | arrayRead
  | byteWrite
  | arrayWrite
  | writeThenRead
  deriving DecidableEq, Repr

/-- Whether the name `m` begins with `p`. -/
def startsWith (p m : String) : Bool := p.data.isPrefixOf m.data

/-- The kind of a method, read from its name: `i2cOpen`, `i2cClose`,
`i2cWriteAndReadBytes`, and the names that begin with `i2cReadBytes`,
`i2cReadByte`, `i2cWriteBytes`, `i2cWriteByte` (the longer beginning first). -/
def kindOf (m : String) : Option Kind :=
  if m = "i2cOpen" then some .opening
  else if m = "i2cClose" then some .closing
  else if m = "i2cWriteAndReadBytes" then some .writeThenRead
  else if startsWith "i2cReadBytes" m then some .arrayRead
  else if startsWith "i2cReadByte" m then some .byteRead
  else if startsWith "i2cWriteBytes" m then some .arrayWrite
  else if startsWith "i2cWriteByte" m then some .byteWrite
  else none

/-- The name without its ending `Direct`, for a name that ends so. -/
def stripDirect (m : String) : Option String :=
  match m.data.reverse with
  | 't' :: 'c' :: 'e' :: 'r' :: 'i' :: 'D' :: rest => some (String.mk rest.reverse)
  | _ => none

/-- Whether `ys` is `xs` with one `t` put in at position `i`. -/
def insertedAt (t : CType) (xs ys : List CType) (i : Nat) : Bool :=
  ys == xs.take i ++ t :: xs.drop i

/-- Whether `ys` is `xs` with exactly one more `t` somewhere and nothing else changed. -/
def insertsOne (t : CType) (xs ys : List CType) : Bool :=
  (List.range (xs.length + 1)).any (insertedAt t xs ys)

/-- The positions of the parameters of type `t`. -/
def positionsOf (t : CType) (ps : List CType) : List Nat :=
  (List.range ps.length).filter (fun i => ps[i]? == some t)

/-! ## The implementations, as the specification describes them -/

/-- A value a caller passes to a native function. -/
inductive JValue where
  | int (v : Int)
  | byte (v : Int)
  | byteArray (vs : List Int)
  | string (s : String)
  deriving DecidableEq, Repr

/-- The JNI type of a value. -/
def JValue.type : JValue → CType
  | .int _ => jint
  | .byte _ => jbyte
  | .byteArray _ => jbyteArray
  | .string _ => jstring

/-- A call of the operating system's I2C driver interface: a device node is
opened, closed, or sent an ioctl-style read, write or combined transfer. -/
inductive OsCall where
  | openNode (args : List JValue)
  | closeNode (args : List JValue)
  | ioctl (kind : Kind) (args : List JValue)
  deriving DecidableEq, Repr

/-- An operating system over states `σ`: what a call returns in a state, and the
state it leaves. -/
structure Os (σ : Type) where
  call : σ → OsCall → Int × σ

/-- What a call of a native function amounts to: the value returned to the
caller, the state of the operating system after it, and the calls of the
operating system it made, in order. -/
structure Outcome (σ : Type) where
  result : Int
  state : σ
  trace : List OsCall

/-- Modelled from the spec: the operating-system call a declared function passes
its arguments on to. The bodies of the functions (the C file that implements
this header) are not among the sources; the specification says that each function
"is a direct pass-through to an underlying operating-system I2C driver interface
(open a device node, issue ioctl-style reads/writes, close the device node)".
The arguments are those after `JNIEnv *` and `jclass`, and they must have the
types of the prototype. -/
def osCallOf (d : Declaration) (args : List JValue) : Option OsCall :=
  if args.map JValue.type = d.params.drop 2 then
    match kindOf d.method with
    | some .opening => some (.openNode args)
    | some .closing => some (.closeNode args)
    | some k => some (.ioctl k args)
    | none => none
  else none

/-- Modelled from the spec: a call of a declared function, whose body is not among
the sources. The specification gives it "no caching" and "no error-recovery policy
beyond forwarding the OS-level return code": one call of the operating system is
made, in the state the function was called in, and what it returns is returned. -/
def invoke {σ : Type} (os : Os σ) (d : Declaration) (args : List JValue) (w : σ) :
    Option (Outcome σ) :=
  (osCallOf d args).map fun c =>
    { result := (os.call w c).1, state := (os.call w c).2, trace := [c] }

/-- An operating system, for examples: its state counts the calls made, opening
a node returns the next descriptor, any other call fails with -1. -/
def countingOs : Os Nat where
  call := fun n c =>
    match c with
    | .openNode _ => (Int.ofNat (n + 3), n + 1)
    | _ => (-1, n + 1)

/-! ## What the reading of the header yields -/

set_option maxRecDepth 1000000 in
/-- The header's text has 129 lines and 3614 characters. -/
theorem headerText_size : com_pi4j_jni_I2C_h.length = 129 ∧ headerText.length = 3614 := by
  decide!

set_option maxRecDepth 1000000 in
/-- Reading the header gives exactly the eleven prototypes written out above, for
a C compiler and for a C++ compiler (there inside the `extern "C"` block). -/
theorem items_eq (lang : Language) :
    items lang = (prototypes (linkageOf lang)).map Item.prototype := by
  cases lang <;> decide!

set_option maxRecDepth 1000000 in
/-- The declared functions are the eleven prototypes written out above. -/
theorem declarations_eq (lang : Language) :
    declarations lang = prototypes (linkageOf lang) := by
  cases lang <;> decide!

set_option maxRecDepth 1000000 in
/-- The preprocessor pass over the header: one macro is defined, the include
guard, with an empty replacement; `jni.h` is included; every directive is
understood and every conditional is closed. -/
theorem preprocessed_facts (lang : Language) :
    (preprocessed lang).defines = [("_Included_com_pi4j_jni_I2C", [])] ∧
    (preprocessed lang).includes = ["<jni.h>"] ∧
    (preprocessed lang).unknown = [] ∧
    (preprocessed lang).stack = [] := by
  cases lang <;> decide!

set_option maxRecDepth 1000000 in
/-- When the include guard is already defined, nothing of the header is left but
comments: all its items stand inside the guard. -/
theorem guarded (lang : Language) :
    itemsWith ("_Included_com_pi4j_jni_I2C" :: predefined lang) = [] ∧
    (preprocessedWith ("_Included_com_pi4j_jni_I2C" :: predefined lang)).defines = [] := by
  cases lang <;> decide!

/-- The reader tells a prototype from a function with a body, from an object and
from a macro: it would have found them. -/
theorem reader_sees_other_items :
    (readItems (lex "int f(int a) \x7b return a; \x7d".data)).map Item.isDefinition = [true] ∧
    (readItems (lex "int counter;".data)).map Item.isVariable = [true] ∧
    (readItems (lex "int f(int);".data)).map Item.isPrototype = [true] ∧
    (preprocess [] (lex "#define N 4".data)).defines = [("N", ["4"])] := by
  decide!

/-- The name `m` ends in `Direct` after `base` exactly when `stripDirect` says so. -/
theorem stripDirect_eq_some_iff (m base : String) :
    stripDirect m = some base ↔ m = base ++ "Direct" := by
  have hm : m = String.mk m.data := rfl
  constructor
  · intro h
    unfold stripDirect at h
    split at h
    · rename_i rest hrest
      have hdata : m.data = rest.reverse ++ ['D', 'i', 'r', 'e', 'c', 't'] := by
        have := congrArg List.reverse hrest
        simpa using this
      injection h with h
      subst h
      rw [hm, hdata]
      rfl
    · cases h
  · intro h
    subst h
    have hrev : (base ++ "Direct").data.reverse
        = 't' :: 'c' :: 'e' :: 'r' :: 'i' :: 'D' :: base.data.reverse := by
      simp [String.data_append]
    unfold stripDirect
    rw [hrev]
    simp

/-- A list that passes `insertsOne` is the other list with one element put in. -/
theorem insertsOne_spec (t : CType) (xs ys : List CType) (h : insertsOne t xs ys = true) :
    ∃ pre post, xs = pre ++ post ∧ ys = pre ++ t :: post := by
  unfold insertsOne at h
  rw [List.any_eq_true] at h
  obtain ⟨i, _, hi⟩ := h
  refine ⟨xs.take i, xs.drop i, (List.take_append_drop i xs).symm, ?_⟩
  simpa [insertedAt] using hi

/-- The positions `positionsOf` lists are those that hold the type. -/
theorem mem_positionsOf (t : CType) (ps : List CType) (i : Nat) :
    i ∈ positionsOf t ps ↔ ps[i]? = some t := by
  unfold positionsOf
  rw [List.mem_filter, List.mem_range]
  constructor
  · rintro ⟨_, h⟩
    simpa using h
  · intro h
    refine ⟨?_, by simpa using h⟩
    by_contra hlt
    rw [List.getElem?_eq_none (Nat.le_of_not_lt hlt)] at h
    cases h

/-! ## The claims -/

/-- C1, against the model of the implementations: a call of any declared function
with arguments of the prototype's types makes exactly one call of the operating
system, in the state it was called in, returns to the caller the value that call
returned, whatever it is, and leaves the state that call left: no retry, no cache,
no recovery step; the call opens a node, closes one, or is an ioctl-style transfer. -/
theorem invoke_is_pass_through {σ : Type} (os : Os σ) (lang : Language) (d : Declaration)
    (args : List JValue) (w : σ) (hd : d ∈ declarations lang)
    (hargs : args.map JValue.type = d.params.drop 2) :
    ∃ c out, osCallOf d args = some c ∧ invoke os d args w = some out ∧
      out.result = (os.call w c).1 ∧ out.state = (os.call w c).2 ∧ out.trace = [c] ∧
      (c = .openNode args ∨ c = .closeNode args ∨ ∃ k, c = .ioctl k args) := by
  have hkind : ∀ e ∈ declarations lang, (kindOf e.method).isSome = true := by
    rw [declarations_eq]
    cases lang <;> decide
  obtain ⟨k, hk⟩ := Option.isSome_iff_exists.1 (hkind d hd)
  have hc : ∃ c, osCallOf d args = some c ∧
      (c = .openNode args ∨ c = .closeNode args ∨ ∃ k, c = .ioctl k args) := by
    unfold osCallOf
    rw [if_pos hargs, hk]
    cases k
    · exact ⟨_, rfl, Or.inl rfl⟩
    · exact ⟨_, rfl, Or.inr (Or.inl rfl)⟩
    all_goals exact ⟨_, rfl, Or.inr (Or.inr ⟨_, rfl⟩)⟩
  obtain ⟨c, hc, hform⟩ := hc
  refine ⟨c, { result := (os.call w c).1, state := (os.call w c).2, trace := [c] }, hc, ?_,
    rfl, rfl, rfl, hform⟩
  simp [invoke, hc]

/-- C1 at a concrete call: `i2cClose(5)` on an operating system whose every call
but an open fails with -1 returns that -1 after one call. -/
theorem invoke_is_pass_through_witness :
    ∃ c out, osCallOf (Java_com_pi4j_jni_I2C_i2cClose none) [.int 5] = some c ∧
      invoke countingOs (Java_com_pi4j_jni_I2C_i2cClose none) [.int 5] 0 = some out ∧
      out.result = (countingOs.call 0 c).1 ∧ out.state = (countingOs.call 0 c).2 ∧
      out.trace = [c] ∧
      (c = .openNode [.int 5] ∨ c = .closeNode [.int 5] ∨ ∃ k, c = .ioctl k [.int 5]) :=
  invoke_is_pass_through countingOs .c (Java_com_pi4j_jni_I2C_i2cClose none) [.int 5] 0
    (by rw [declarations_eq]; decide) (by decide)

set_option maxRecDepth 1000000 in
/-- C2 as stated fails: the number of `JNIEXPORT` function declarations in the
header is not 10. -/
theorem exported_count_ne_ten : (exportedDeclarations .c).length ≠ 10 := by
  decide!

set_option maxRecDepth 1000000 in
/-- C2 amended: the header declares exactly eleven operations: it has eleven
function declarations, every one of them is a `JNIEXPORT` declaration, and the word
`JNIEXPORT` stands eleven times in the file. -/
theorem exported_count_eleven (lang : Language) :
    (exportedDeclarations lang).length = 11 ∧
    exportedDeclarations lang = declarations lang ∧
    ((lex headerText).filter (fun t => t = .ident "JNIEXPORT")).length = 11 := by
  cases lang <;> decide!

/-- C3: every declared method is, by its name, one of open, close, byte read,
array read, byte write, array write and combined write-then-read, and each of the
seven kinds is declared at least once. -/
theorem kinds_declared (lang : Language) :
    (∀ d ∈ declarations lang, ∃ k, kindOf d.method = some k) ∧
    (∀ k : Kind, ∃ d ∈ declarations lang, kindOf d.method = some k) := by
  rw [declarations_eq]
  constructor
  · have h : ∀ d ∈ prototypes (linkageOf lang), (kindOf d.method).isSome = true := by
      cases lang <;> decide
    exact fun d hd => Option.isSome_iff_exists.1 (h d hd)
  · intro k
    cases lang <;> cases k <;> decide

/-- C4: every declared operation has result type `jint`; none returns `void`, a
byte, an array or an object. -/
theorem result_type_is_jint (lang : Language) (d : Declaration)
    (hd : d ∈ declarations lang) :
    resultType d = some jint ∧
    resultType d ≠ some (.named "void") ∧ resultType d ≠ some jbyte ∧
    resultType d ≠ some jbyteArray ∧ resultType d ≠ some (.named "jobject") ∧
    resultType d ≠ some jstring := by
  revert d
  rw [declarations_eq]
  cases lang <;> decide

/-- C4 at `i2cReadByte`. -/
theorem result_type_is_jint_witness :
    resultType (Java_com_pi4j_jni_I2C_i2cReadByte none) = some jint ∧
    resultType (Java_com_pi4j_jni_I2C_i2cReadByte none) ≠ some (.named "void") ∧
    resultType (Java_com_pi4j_jni_I2C_i2cReadByte none) ≠ some jbyte ∧
    resultType (Java_com_pi4j_jni_I2C_i2cReadByte none) ≠ some jbyteArray ∧
    resultType (Java_com_pi4j_jni_I2C_i2cReadByte none) ≠ some (.named "jobject") ∧
    resultType (Java_com_pi4j_jni_I2C_i2cReadByte none) ≠ some jstring :=
  result_type_is_jint .c (Java_com_pi4j_jni_I2C_i2cReadByte none)
    (by rw [declarations_eq]; decide)

/-- C5: the class named in every comment is the mangled form of
`com.pi4j.jni.I2C`; no method name holds `_`, `;`, `[` or a character that is
not ASCII, so its mangled form is the name itself; every exported symbol is
`Java_`, `com_pi4j_jni_I2C`, `_` and the method name, which is the JNI mangling
of class and method; and the exported symbols are pairwise distinct. -/
theorem symbol_is_mangled_name (lang : Language) :
    (∀ d ∈ declarations lang,
      d.cls = "com_pi4j_jni_I2C" ∧ mangle "com.pi4j.jni.I2C" = d.cls ∧
      (∀ c ∈ d.method.data, needsEscape c = false) ∧ mangle d.method = d.method ∧
      d.symbol = "Java_" ++ "com_pi4j_jni_I2C" ++ "_" ++ d.method ∧
      d.symbol = "Java_" ++ d.cls ++ "_" ++ d.method ∧
      d.symbol = jniSymbol "com.pi4j.jni.I2C" d.method) ∧
    (declarations lang).Pairwise (fun a b => a.symbol ≠ b.symbol) := by
  rw [declarations_eq]
  cases lang <;> decide

/-- C6: every top-level item of the header is a function prototype, for a C and
for a C++ compiler: none is a function with a body, none an object; the one macro
the header defines is its include guard `_Included_com_pi4j_jni_I2C`, with an
empty replacement; and all the items stand inside the guard, since nothing is
left of them once the guard is defined. -/
theorem declarations_only (lang : Language) :
    (∀ it ∈ items lang, it.isPrototype = true ∧ it.isDefinition = false ∧
      it.isVariable = false) ∧
    (items lang).length = 11 ∧
    (preprocessed lang).defines = [("_Included_com_pi4j_jni_I2C", [])] ∧
    (preprocessed lang).unknown = [] ∧
    itemsWith ("_Included_com_pi4j_jni_I2C" :: predefined lang) = [] ∧
    (preprocessedWith ("_Included_com_pi4j_jni_I2C" :: predefined lang)).defines = [] := by
  refine ⟨?_, ?_, (preprocessed_facts lang).1, (preprocessed_facts lang).2.2.1,
    (guarded lang).1, (guarded lang).2⟩
  · rw [items_eq]
    cases lang <;> decide
  · rw [items_eq]
    cases lang <;> decide

/-- C7: the signature in the comment of a declaration decodes to the prototype
below it: the parameters are `JNIEnv *`, `jclass` and then the decoded argument
types in order, and the decoded result type is the prototype's. -/
theorem signature_matches_prototype (lang : Language) (d : Declaration)
    (hd : d ∈ declarations lang) :
    ∃ args ret, decodeSignature d.signature = some (args, ret) ∧
      d.params = JNIEnvPtr :: jclass :: args ∧ resultType d = some ret := by
  have h : decodeSignature d.signature = some (d.params.drop 2, jint) ∧
      d.params = JNIEnvPtr :: jclass :: d.params.drop 2 ∧ resultType d = some jint := by
    revert d
    rw [declarations_eq]
    cases lang <;> decide
  exact ⟨_, _, h⟩

/-- C7 at `i2cWriteAndReadBytes`, whose signature is `(IIII[BII[B)I`. -/
theorem signature_matches_prototype_witness :
    ∃ args ret,
      decodeSignature (Java_com_pi4j_jni_I2C_i2cWriteAndReadBytes none).signature
        = some (args, ret) ∧
      (Java_com_pi4j_jni_I2C_i2cWriteAndReadBytes none).params
        = JNIEnvPtr :: jclass :: args ∧
      resultType (Java_com_pi4j_jni_I2C_i2cWriteAndReadBytes none) = some ret :=
  signature_matches_prototype .c (Java_com_pi4j_jni_I2C_i2cWriteAndReadBytes none)
    (by rw [declarations_eq]; decide)

/-- C8: the methods whose name ends in `Direct` are the four named; for each of
them the header declares the method of the same name without `Direct`, with the
same result type and with the parameter list of the `Direct` method plus exactly
one `jint`, nothing else changed. -/
theorem direct_variants_paired (lang : Language) :
    ((declarations lang).map (·.method)).filter (fun m => (stripDirect m).isSome)
      = ["i2cWriteByteDirect", "i2cWriteBytesDirect", "i2cReadByteDirect",
         "i2cReadBytesDirect"] ∧
    ∀ d ∈ declarations lang, ∀ base, d.method = base ++ "Direct" →
      ∃ r ∈ declarations lang, r.method = base ∧ resultType r = resultType d ∧
        ∃ pre post, d.params = pre ++ post ∧ r.params = pre ++ jint :: post := by
  have key : ∀ d ∈ declarations lang, ∀ base, stripDirect d.method = some base →
      ∃ r ∈ declarations lang, r.method = base ∧ resultType r = resultType d ∧
        insertsOne jint d.params r.params = true := by
    have h : ∀ d ∈ declarations lang, ∀ base ∈ stripDirect d.method,
        ∃ r ∈ declarations lang, r.method = base ∧ resultType r = resultType d ∧
          insertsOne jint d.params r.params = true := by
      rw [declarations_eq]
      cases lang <;> decide
    exact fun d hd base hb => h d hd base hb
  refine ⟨?_, ?_⟩
  · rw [declarations_eq]
    cases lang <;> decide
  · intro d hd base hbase
    obtain ⟨r, hr, hm, hres, hins⟩ := key d hd base ((stripDirect_eq_some_iff _ _).2 hbase)
    exact ⟨r, hr, hm, hres, insertsOne_spec _ _ _ hins⟩

/-- C9: in every declaration each `jbyteArray` parameter has a `jint` parameter
in each of the two places right before it; `i2cWriteAndReadBytes` is declared, it
has two `jbyteArray` parameters, and more than two parameters lie between the
start of the first and the second, so the two `jint` before the second are not
those before the first. -/
theorem buffers_carry_two_ints (lang : Language) :
    (∀ d ∈ declarations lang, ∀ i, d.params[i]? = some jbyteArray →
      2 ≤ i ∧ d.params[i - 1]? = some jint ∧ d.params[i - 2]? = some jint) ∧
    (∃ d ∈ declarations lang, d.method = "i2cWriteAndReadBytes") ∧
    (∀ d ∈ declarations lang, d.method = "i2cWriteAndReadBytes" →
      ∃ i j, i + 2 < j ∧ ∀ k, d.params[k]? = some jbyteArray ↔ k = i ∨ k = j) := by
  have h1 : ∀ d ∈ declarations lang, ∀ i ∈ positionsOf jbyteArray d.params,
      2 ≤ i ∧ d.params[i - 1]? = some jint ∧ d.params[i - 2]? = some jint := by
    rw [declarations_eq]
    cases lang <;> decide
  have h2 : ∃ d ∈ declarations lang, d.method = "i2cWriteAndReadBytes" := by
    rw [declarations_eq]
    cases lang <;> decide
  have h3 : ∀ d ∈ declarations lang, d.method = "i2cWriteAndReadBytes" →
      positionsOf jbyteArray d.params = [6, 9] := by
    rw [declarations_eq]
    cases lang <;> decide
  refine ⟨fun d hd i hi => h1 d hd i ((mem_positionsOf _ _ _).2 hi), h2, ?_⟩
  intro d hd hm
  refine ⟨6, 9, by decide, fun k => ?_⟩
  rw [← mem_positionsOf, h3 d hd hm]
  simp

end Pi4j
